import Mathlib

/-!
Verification development for the image-tools repository: a shallow embedding
of the geometry engine (src/utils/geometry.ts), the raster operations
(src/utils/canvas.ts), the WAV encoder (src/utils/canvas.ts, audio part) and
the interaction state machine of the ImageEditor component.

Conventions of the embedding:
* JavaScript numbers used for coordinates are modelled as rationals (ℚ);
  the real-valued Euclidean colour distance uses `Real.sqrt`.
* Byte buffers are `List ℕ` with each entry a byte value.
* React state is modelled as an explicit `EditorState` record; the raster
  primitives whose pixel-level implementation the editor merely invokes
  (floodFill, flipHorizontal, getPixelColor, layout computation) are
  abstracted as a `RasterOps` record of functions, since the editor's
  control flow does not inspect their results.
* Asynchronous image reloads (`img.onload`) are modelled as taking effect
  immediately; canvas `toDataURL` snapshots are modelled as the image value
  itself.
-/

namespace ImageTools

/-! ## Geometry engine (src/utils/geometry.ts) -/

/-- A selection rectangle in canvas-display coordinates; width or height may
be negative while a drag is in progress. -/
structure SelectionRect where
  x : ℚ
  y : ℚ
  width : ℚ
  height : ℚ
deriving DecidableEq, Repr

/-- A point in canvas-display coordinates. -/
structure Point where
  x : ℚ
  y : ℚ
deriving DecidableEq, Repr

/-- The eight resize handles, in the enumeration order of the source's
`getHandlePositions` object literal. -/
inductive ResizeHandle where
  | topLeft
  | top
  | topRight
  | right
  | bottomRight
  | bottom
  | bottomLeft
  | left
deriving DecidableEq, Repr

/-- Source `normalizeRect`: shift the origin by a negative extent and take
absolute values of width and height. -/
def normalizeRect (r : SelectionRect) : SelectionRect :=
  { x := if r.width < 0 then r.x + r.width else r.x
    y := if r.height < 0 then r.y + r.height else r.y
    width := |r.width|
    height := |r.height| }

/-- Source `getHandlePositions`: the eight handle anchor points of the
normalized rectangle. -/
def getHandlePositions (r : SelectionRect) : ResizeHandle → Point :=
  let n := normalizeRect r
  fun h =>
    match h with
    | .topLeft => ⟨n.x, n.y⟩
    | .top => ⟨n.x + n.width / 2, n.y⟩
    | .topRight => ⟨n.x + n.width, n.y⟩
    | .right => ⟨n.x + n.width, n.y + n.height / 2⟩
    | .bottomRight => ⟨n.x + n.width, n.y + n.height⟩
    | .bottom => ⟨n.x + n.width / 2, n.y + n.height⟩
    | .bottomLeft => ⟨n.x, n.y + n.height⟩
    | .left => ⟨n.x, n.y + n.height / 2⟩

/-- Source constant `HANDLE_HIT_SIZE = 14`. -/
def HANDLE_HIT_SIZE : ℚ := 14

/-- The canonical handle enumeration order, i.e. the insertion order of the
`getHandlePositions` object literal, which is the iteration order of
`Object.entries` in `hitTestHandle`. -/
def handleOrder : List ResizeHandle :=
  [.topLeft, .top, .topRight, .right, .bottomRight, .bottom, .bottomLeft, .left]

/-- The per-handle test of the `hitTestHandle` loop:
`|px - pos.x| ≤ 14 && |py - pos.y| ≤ 14`. -/
def inHitBox (p : Point) (px py : ℚ) : Bool :=
  decide (|px - p.x| ≤ HANDLE_HIT_SIZE ∧ |py - p.y| ≤ HANDLE_HIT_SIZE)

/-- Source `hitTestHandle`: the unrolled loop over the eight handle entries,
returning the first handle whose hit box contains the point. -/
def hitTestHandle (r : SelectionRect) (px py : ℚ) : Option ResizeHandle :=
  let handles := getHandlePositions r
  if inHitBox (handles .topLeft) px py then some .topLeft
  else if inHitBox (handles .top) px py then some .top
  else if inHitBox (handles .topRight) px py then some .topRight
  else if inHitBox (handles .right) px py then some .right
  else if inHitBox (handles .bottomRight) px py then some .bottomRight
  else if inHitBox (handles .bottom) px py then some .bottom
  else if inHitBox (handles .bottomLeft) px py then some .bottomLeft
  else if inHitBox (handles .left) px py then some .left
  else none

/-- Source `hitTestSelection`: inclusive point-in-normalized-rectangle test. -/
def hitTestSelection (r : SelectionRect) (px py : ℚ) : Bool :=
  let n := normalizeRect r
  decide (n.x ≤ px ∧ px ≤ n.x + n.width ∧ n.y ≤ py ∧ py ≤ n.y + n.height)

/-- Source `applyResize`: move the edges touched by the handle by the
cumulative displacement, starting from the normalized original rectangle. -/
def applyResize (original : SelectionRect) (handle : ResizeHandle) (dx dy : ℚ) :
    SelectionRect :=
  let n := normalizeRect original
  match handle with
  | .topLeft => ⟨n.x + dx, n.y + dy, n.width - dx, n.height - dy⟩
  | .top => ⟨n.x, n.y + dy, n.width, n.height - dy⟩
  | .topRight => ⟨n.x, n.y + dy, n.width + dx, n.height - dy⟩
  | .right => ⟨n.x, n.y, n.width + dx, n.height⟩
  | .bottomRight => ⟨n.x, n.y, n.width + dx, n.height + dy⟩
  | .bottom => ⟨n.x, n.y, n.width, n.height + dy⟩
  | .bottomLeft => ⟨n.x + dx, n.y, n.width - dx, n.height + dy⟩
  | .left => ⟨n.x + dx, n.y, n.width - dx, n.height⟩

/-! ## Colours and pixels -/

/-- An 8-bit RGB colour as used for background removal and flood fill. -/
structure RGBColor where
  r : ℕ
  g : ℕ
  b : ℕ
deriving DecidableEq, Repr

/-- One RGBA pixel of a canvas `ImageData` buffer. -/
structure RGBA where
  r : ℕ
  g : ℕ
  b : ℕ
  a : ℕ
deriving DecidableEq, Repr

/-- The radicand of the Euclidean RGB distance computed in
`removeBackground`: `(r - target.r)² + (g - target.g)² + (b - target.b)²`. -/
def colorDistSq (p : RGBA) (t : RGBColor) : ℚ :=
  ((p.r : ℚ) - t.r) ^ 2 + ((p.g : ℚ) - t.g) ^ 2 + ((p.b : ℚ) - t.b) ^ 2

/-- The Euclidean RGB distance `Math.sqrt(...)` of `removeBackground`. -/
noncomputable def colorDist (p : RGBA) (t : RGBColor) : ℝ :=
  Real.sqrt ((colorDistSq p t : ℚ) : ℝ)

/-- JavaScript `Math.round`: round half toward positive infinity. -/
noncomputable def jsRound (x : ℝ) : ℤ := ⌊x + 1 / 2⌋

/-- The threshold of `removeBackground`:
`(tolerance / 100) * maxDistance` with `maxDistance = 441` in the source. -/
noncomputable def bgThreshold (tol : ℚ) : ℝ := (tol : ℝ) / 100 * 441

open Classical in
/-- The per-pixel body of the `removeBackground` loop: pixels within the
threshold get their alpha replaced (0 inside 70% of the threshold, otherwise
the rounded linear ramp); other pixels are untouched. -/
noncomputable def removeBackgroundPixel (t : RGBColor) (tol : ℚ) (p : RGBA) :
    RGBA :=
  let d := colorDist p t
  let threshold := bgThreshold tol
  if d ≤ threshold then
    { p with
      a :=
        if d ≤ threshold * (7 / 10) then 0
        else (jsRound ((255 : ℝ) *
          ((d - threshold * (7 / 10)) / (threshold * (3 / 10))))).toNat }
  else p

/-- Source `removeBackground`, with the image's `ImageData` modelled as a
list of RGBA pixels: the loop applies `removeBackgroundPixel` to every
pixel. -/
noncomputable def removeBackground (t : RGBColor) (tol : ℚ) (img : List RGBA) :
    List RGBA :=
  img.map (removeBackgroundPixel t tol)

/-! ## Edge sampling of detectBackgroundColor (src/utils/canvas.ts) -/

/-- The clamping of `addSample` in `detectBackgroundColor`:
`max(0, min(limit - 1, v))`; the lower clamp is implicit for naturals. -/
def clampCoord (limit : ℕ) (v : ℕ) : ℕ := min (limit - 1) v

/-- The stride of the edge-sampling loops:
`max(1, floor((w + h) * 2 / sampleCount))` with
`sampleCount = min(200, (w + h) * 2)`. -/
def detectStride (w h : ℕ) : ℕ :=
  max 1 ((w + h) * 2 / min 200 ((w + h) * 2))

/-- The sequence of pixel positions read by the two sampling loops of
`detectBackgroundColor`: `for (i = 0; i < w; i += step)` samples `(i, 0)` and
`(i, h-1)`, then `for (i = 0; i < h; i += step)` samples `(0, i)` and
`(w-1, i)`, each position clamped by `addSample`. -/
def edgeSamples (w h : ℕ) : List (ℕ × ℕ) :=
  let step := detectStride w h
  (((List.range w).filter fun i => i % step = 0).flatMap fun i =>
      [(clampCoord w i, clampCoord h 0), (clampCoord w i, clampCoord h (h - 1))])
    ++ (((List.range h).filter fun i => i % step = 0).flatMap fun i =>
      [(clampCoord w 0, clampCoord h i), (clampCoord w (w - 1), clampCoord h i)])

/-! ## WAV encoder (src/utils/canvas.ts) -/

/-- Little-endian encoding of a 16-bit field, as written by `setUint16`. -/
def u16le (n : ℕ) : List ℕ := [n % 256, n / 256 % 256]

/-- Little-endian encoding of a 32-bit field, as written by `setUint32`. -/
def u32le (n : ℕ) : List ℕ :=
  [n % 256, n / 256 % 256, n / 65536 % 256, n / 16777216 % 256]

/-- The clamp `Math.max(-1, Math.min(1, s))` of the sample loop. -/
def clamp1 (s : ℚ) : ℚ := max (-1) (min 1 s)

/-- Truncation toward zero, which is how `DataView.setInt16` converts a
non-integral JavaScript number (ToIntegerOrInfinity). -/
def jsTruncQ (q : ℚ) : ℤ := if q < 0 then ⌈q⌉ else ⌊q⌋

/-- The 16-bit integer stored for one sample:
`sample < 0 ? sample * 0x8000 : sample * 0x7FFF` applied to the clamped
sample, truncated by `setInt16`. -/
def quantizeSample (s : ℚ) : ℤ :=
  let c := clamp1 s
  jsTruncQ (if c < 0 then c * 32768 else c * 32767)

/-- The two bytes `setInt16(offset, intSample, true)` writes for one sample:
the 16-bit two's-complement representation, little-endian. -/
def sampleBytes (s : ℚ) : List ℕ :=
  u16le ((quantizeSample s % 65536).toNat)

/-- Source `encodeWAV`: the 44-byte RIFF/WAVE header followed by the 16-bit
little-endian PCM samples.  Concatenation order matches the fixed offsets
written through the `DataView` (0 "RIFF", 4 ChunkSize, 8 "WAVE", 12 "fmt ",
16 Subchunk1Size, 20 AudioFormat, 22 NumChannels, 24 SampleRate, 28 ByteRate,
32 BlockAlign, 34 BitsPerSample, 36 "data", 40 Subchunk2Size, 44 data). -/
def encodeWAV (samples : List ℚ) (sampleRate : ℕ) : List ℕ :=
  let dataSize := 2 * samples.length
  [82, 73, 70, 70] ++ u32le (36 + dataSize) ++ [87, 65, 86, 69]
    ++ [102, 109, 116, 32] ++ u32le 16 ++ u16le 1 ++ u16le 1
    ++ u32le sampleRate ++ u32le (sampleRate * 2) ++ u16le 2 ++ u16le 16
    ++ [100, 97, 116, 97] ++ u32le dataSize
    ++ samples.flatMap sampleBytes

/-- The slice of `len` bytes starting at byte offset `off`. -/
def bytesAt (l : List ℕ) (off len : ℕ) : List ℕ := (l.drop off).take len

/-- Spec-side rounding `round(x)` as used in the WAV sample formula of the
specification (JavaScript `Math.round`, half toward positive infinity), on
rationals.  Modelled from the spec for comparison with the code's
truncation. -/
def specRound (q : ℚ) : ℤ := ⌊q + 1 / 2⌋

/-! ## Interaction state machine (ImageEditor component) -/

/-- The layout mapping source-image pixels to canvas-display pixels. -/
structure Layout where
  scale : ℚ
  offsetX : ℚ
  offsetY : ℚ
deriving DecidableEq, Repr

/-- The pointer-interaction state of the selection machinery. -/
inductive InteractionMode where
  | idle
  | drawing
  | moving
  | resizing
deriving DecidableEq, Repr

/-- The React state of the ImageEditor component that the pointer and commit
handlers read and write, over an abstract image type `Img`. -/
structure EditorState (Img : Type) where
  working : Img
  selection : Option SelectionRect
  interactionMode : InteractionMode
  activeHandle : Option ResizeHandle
  croppedImage : Option Img
  processedImage : Option Img
  layout : Layout
  removeBgMode : Bool
  pickingColor : Bool
  bgColor : Option RGBColor
  tolerance : ℚ
  resizeMode : Bool
  fillMode : Bool
  fillColor : RGBColor
  fillTolerance : ℚ
  undoStack : List Img
  redoStack : List Img
  dragStart : Point
  selectionStart : Option SelectionRect

/-- The raster primitives the editor invokes without inspecting their
implementation. -/
structure RasterOps (Img : Type) where
  naturalWidth : Img → ℕ
  naturalHeight : Img → ℕ
  floodFill : Img → ℚ → ℚ → RGBColor → ℚ → Img
  getPixelColor : Img → ℚ → ℚ → Layout → Option RGBColor
  flipHorizontal : Img → Img
  computeLayout : Img → Layout

/-- Source `pushUndo`: push a snapshot of the current working image onto the
undo stack (most-recent-last) and clear the redo stack. -/
def pushUndo {Img : Type} (s : EditorState Img) : EditorState Img :=
  { s with undoStack := s.undoStack ++ [s.working], redoStack := [] }

/-- Source `handleMouseDown`: result/resize-mode guards, the paint-bucket
fill branch with its bounds guard, colour picking, and the selection state
machine of default mode. -/
def handleMouseDown {Img : Type} (ops : RasterOps Img) (s : EditorState Img)
    (pos : Point) : EditorState Img :=
  if s.croppedImage.isSome || s.processedImage.isSome then s
  else if s.resizeMode then s
  else if s.fillMode then
    let imgX := (pos.x - s.layout.offsetX) / s.layout.scale
    let imgY := (pos.y - s.layout.offsetY) / s.layout.scale
    if imgX < 0 ∨ imgY < 0 ∨ (ops.naturalWidth s.working : ℚ) ≤ imgX ∨
        (ops.naturalHeight s.working : ℚ) ≤ imgY then s
    else
      let result := ops.floodFill s.working imgX imgY s.fillColor s.fillTolerance
      let s1 := pushUndo s
      { s1 with working := result, layout := ops.computeLayout result }
  else if s.removeBgMode && s.pickingColor then
    match ops.getPixelColor s.working pos.x pos.y s.layout with
    | some c => { s with bgColor := some c, pickingColor := false }
    | none => s
  else if s.removeBgMode then s
  else
    let s0 := { s with dragStart := pos }
    match s.selection with
    | some sel =>
      match hitTestHandle sel pos.x pos.y with
      | some h =>
        { s0 with
          interactionMode := .resizing
          activeHandle := some h
          selectionStart := some (normalizeRect sel) }
      | none =>
        if hitTestSelection sel pos.x pos.y then
          { s0 with
            interactionMode := .moving
            selectionStart := some (normalizeRect sel) }
        else
          { s0 with
            interactionMode := .drawing
            selection := some ⟨pos.x, pos.y, 0, 0⟩ }
    | none =>
      { s0 with
        interactionMode := .drawing
        selection := some ⟨pos.x, pos.y, 0, 0⟩ }

/-- Source `handleUseCropped`: adopt the cropped result as the new working
image.  It does not call `pushUndo`. -/
def handleUseCropped {Img : Type} (ops : RasterOps Img) (s : EditorState Img) :
    EditorState Img :=
  match s.croppedImage with
  | none => s
  | some img =>
    { s with
      working := img
      selection := none
      croppedImage := none
      layout := ops.computeLayout img }

/-- Source `handleUseProcessed`: adopt the background-removal result as the
new working image.  It does not call `pushUndo`. -/
def handleUseProcessed {Img : Type} (ops : RasterOps Img)
    (s : EditorState Img) : EditorState Img :=
  match s.processedImage with
  | none => s
  | some img =>
    { s with
      working := img
      processedImage := none
      removeBgMode := false
      bgColor := none
      pickingColor := false
      layout := ops.computeLayout img }

/-- Source `handleUseResized`: adopt the resized result as the new working
image.  It does not call `pushUndo`. -/
def handleUseResized {Img : Type} (ops : RasterOps Img) (s : EditorState Img) :
    EditorState Img :=
  match s.processedImage with
  | none => s
  | some img =>
    { s with
      working := img
      processedImage := none
      resizeMode := false
      layout := ops.computeLayout img }

/-- The flip toolbar button: `pushUndo()` then replace the working image with
the horizontally flipped result. -/
def handleFlipClick {Img : Type} (ops : RasterOps Img) (s : EditorState Img) :
    EditorState Img :=
  let s1 := pushUndo s
  let result := ops.flipHorizontal s.working
  { s1 with working := result, layout := ops.computeLayout result }

/-- Source `hasValidSelection`:
`selNorm && selNorm.width > 5 && selNorm.height > 5`. -/
def hasValidSelection (sel : Option SelectionRect) : Bool :=
  match sel with
  | none => false
  | some r =>
    decide (5 < (normalizeRect r).width) && decide (5 < (normalizeRect r).height)

/-- Availability of the Crop button: it is rendered only in the default
toolbar branch (no result shown, no fill/resize/remove-background mode) and
only when `hasValidSelection` holds. -/
def cropAvailable {Img : Type} (s : EditorState Img) : Bool :=
  !(s.croppedImage.isSome || s.processedImage.isSome) && !s.fillMode &&
    !s.resizeMode && !s.removeBgMode && hasValidSelection s.selection

/-- A concrete instantiation of the raster primitives over `Img := ℕ`, used
to evaluate the state machine on concrete inputs. -/
def natOps : RasterOps ℕ where
  naturalWidth := fun _ => 4
  naturalHeight := fun _ => 4
  floodFill := fun _ _ _ _ _ => 99
  getPixelColor := fun _ _ _ _ => none
  flipHorizontal := fun i => i + 50
  computeLayout := fun _ => ⟨1, 0, 0⟩

/-- A concrete editor state over `Img := ℕ` in fill mode. -/
def fillState : EditorState ℕ where
  working := 7
  selection := none
  interactionMode := .idle
  activeHandle := none
  croppedImage := none
  processedImage := none
  layout := ⟨1, 0, 0⟩
  removeBgMode := false
  pickingColor := false
  bgColor := none
  tolerance := 10
  resizeMode := false
  fillMode := true
  fillColor := ⟨255, 0, 0⟩
  fillTolerance := 10
  undoStack := []
  redoStack := [3]
  dragStart := ⟨0, 0⟩
  selectionStart := none

/-- A concrete editor state over `Img := ℕ` showing a cropped result. -/
def croppedState : EditorState ℕ where
  working := 1
  selection := some ⟨0, 0, 20, 20⟩
  interactionMode := .idle
  activeHandle := none
  croppedImage := some 2
  processedImage := none
  layout := ⟨1, 0, 0⟩
  removeBgMode := false
  pickingColor := false
  bgColor := none
  tolerance := 10
  resizeMode := false
  fillMode := false
  fillColor := ⟨255, 0, 0⟩
  fillTolerance := 10
  undoStack := []
  redoStack := [9]
  dragStart := ⟨0, 0⟩
  selectionStart := none

/-- A concrete default-mode editor state over `Img := ℕ` whose selection has
normalized size exactly 5 by 5. -/
def fiveByFiveState : EditorState ℕ where
  working := 1
  selection := some ⟨0, 0, 5, 5⟩
  interactionMode := .idle
  activeHandle := none
  croppedImage := none
  processedImage := none
  layout := ⟨1, 0, 0⟩
  removeBgMode := false
  pickingColor := false
  bgColor := none
  tolerance := 10
  resizeMode := false
  fillMode := false
  fillColor := ⟨255, 0, 0⟩
  fillTolerance := 10
  undoStack := []
  redoStack := []
  dragStart := ⟨0, 0⟩
  selectionStart := none

/-- The same default-mode state with a 6 by 6 selection. -/
def sixBySixState : EditorState ℕ :=
  { fiveByFiveState with selection := some ⟨0, 0, 6, 6⟩ }

/-! ## Helper lemmas -/

theorem normalizeRect_idem (r : SelectionRect) :
    normalizeRect (normalizeRect r) = normalizeRect r := by
  simp [normalizeRect, abs_abs, not_lt.mpr (abs_nonneg r.width),
    not_lt.mpr (abs_nonneg r.height)]

theorem getHandlePositions_normalizeRect (r : SelectionRect) :
    getHandlePositions (normalizeRect r) = getHandlePositions r := by
  simp only [getHandlePositions, normalizeRect_idem]

/-! ## Claim theorems: geometry -/

/-- Claim C10: `getHandlePositions`, `hitTestSelection`, `hitTestHandle` and
`applyResize` are invariant under normalization of their rectangle argument,
because each of them normalizes the rectangle first and `normalizeRect` is
idempotent. -/
theorem geometry_normalization_invariant (r : SelectionRect) (px py dx dy : ℚ)
    (h : ResizeHandle) :
    getHandlePositions (normalizeRect r) h = getHandlePositions r h
    ∧ hitTestSelection (normalizeRect r) px py = hitTestSelection r px py
    ∧ hitTestHandle (normalizeRect r) px py = hitTestHandle r px py
    ∧ applyResize (normalizeRect r) h dx dy = applyResize r h dx dy := by
  refine ⟨?_, ?_, ?_, ?_⟩
  · rw [getHandlePositions_normalizeRect]
  · simp only [hitTestSelection, normalizeRect_idem]
  · simp only [hitTestHandle, getHandlePositions_normalizeRect]
  · simp only [applyResize, normalizeRect_idem]

/-- Claim C7: `hitTestHandle` returns the first handle, in the canonical
enumeration order `handleOrder`, whose position is within the fixed hit
range of 14 display pixels of (px, py) in each axis (the source's
`|px - pos.x| ≤ 14 && |py - pos.y| ≤ 14` test), and returns none exactly
when no handle position passes that test. -/
theorem hitTestHandle_first_in_order (r : SelectionRect) (px py : ℚ) :
    hitTestHandle r px py
        = handleOrder.find? (fun h => inHitBox (getHandlePositions r h) px py)
    ∧ (hitTestHandle r px py = none ↔
        ∀ h : ResizeHandle, inHitBox (getHandlePositions r h) px py = false) := by
  have hfind : hitTestHandle r px py
      = handleOrder.find? (fun h => inHitBox (getHandlePositions r h) px py) := by
    simp only [hitTestHandle, handleOrder, List.find?]
    cases inHitBox (getHandlePositions r .topLeft) px py <;>
      cases inHitBox (getHandlePositions r .top) px py <;>
      cases inHitBox (getHandlePositions r .topRight) px py <;>
      cases inHitBox (getHandlePositions r .right) px py <;>
      cases inHitBox (getHandlePositions r .bottomRight) px py <;>
      cases inHitBox (getHandlePositions r .bottom) px py <;>
      cases inHitBox (getHandlePositions r .bottomLeft) px py <;>
      cases inHitBox (getHandlePositions r .left) px py <;>
      rfl
  have hmem : ∀ h : ResizeHandle, h ∈ handleOrder := by
    intro h
    cases h <;> simp [handleOrder]
  refine ⟨hfind, ?_⟩
  rw [hfind, List.find?_eq_none]
  constructor
  · intro H h
    simpa using H h (hmem h)
  · intro H h _
    simp [H h]

/-! ## Claim theorems: crop availability (C5) -/

/-- Claim C5, counterexample: a selection of normalized size exactly 5 by 5
(which the claim says can be cropped) does not make the Crop commit
available, because the source tests `width > 5 && height > 5` strictly. -/
theorem cropAvailable_five_by_five_cex :
    normalizeRect ⟨0, 0, 5, 5⟩ = ⟨0, 0, 5, 5⟩
    ∧ cropAvailable fiveByFiveState = false := by
  constructor
  · simp [normalizeRect]
  · rfl

/-- Claim C5 as amended: in default mode (no result shown, no
fill/resize/remove-background mode) the Crop commit is available exactly
when the selection's normalized width and height are each strictly greater
than 5 display pixels; a 5 by 5 selection cannot be cropped. -/
theorem cropAvailable_iff {Img : Type} (s : EditorState Img)
    (hc : s.croppedImage = none) (hp : s.processedImage = none)
    (hf : s.fillMode = false) (hr : s.resizeMode = false)
    (hb : s.removeBgMode = false) :
    cropAvailable s = true ↔
      ∃ r, s.selection = some r ∧ 5 < (normalizeRect r).width ∧
        5 < (normalizeRect r).height := by
  simp only [cropAvailable, hc, hp, hf, hr, hb, Option.isSome_none,
    Bool.or_self, Bool.not_false, Bool.true_and]
  cases hsel : s.selection with
  | none => simp [hasValidSelection]
  | some r => simp [hasValidSelection]

/-- Witness for `cropAvailable_iff`: a 6 by 6 selection can be cropped. -/
theorem cropAvailable_iff_witness : cropAvailable sixBySixState = true := by
  exact (cropAvailable_iff sixBySixState rfl rfl rfl rfl rfl).mpr
    ⟨⟨0, 0, 6, 6⟩, rfl, by norm_num [normalizeRect], by norm_num [normalizeRect]⟩

/-! ## Claim theorems: detectBackgroundColor edge sampling (C6) -/

set_option maxRecDepth 100000 in
/-- Claim C6: the edge-sampling loops of `detectBackgroundColor` are claimed
to read at most `min(200, 2*(w+h))` pixels.  On a 60 by 45 image the stride
is `max(1, floor(210 / 200)) = 1`, so the loops read `2*60 + 2*45 = 210`
pixel samples (206 distinct positions), exceeding the 200 cap that the
`sampleCount` variable in the source was computed to enforce. -/
theorem edgeSamples_cap_exceeded :
    (edgeSamples 60 45).length = 210
    ∧ min 200 ((60 + 45) * 2) = 200
    ∧ 200 < (edgeSamples 60 45).length
    ∧ (edgeSamples 60 45).dedup.length = 206 := by
  refine ⟨by decide, by decide, by decide, by decide⟩

/-! ## Claim theorems: interaction state machine (C8, C1) -/

/-- Claim C8: in fill mode, a pointer-down whose mapped source-pixel
coordinate falls outside the image bounds is a complete no-op: the handler
returns the state unchanged (so the working image is untouched and nothing
is pushed onto the undo stack), and the result does not depend on the
`floodFill` primitive, which is therefore never invoked.  The hypothesis
`0 < scale` restricts to the states where the rational coordinate mapping
agrees with the source's floating-point division. -/
theorem fill_out_of_bounds_noop {Img : Type} (ops : RasterOps Img)
    (s : EditorState Img) (pos : Point)
    (hc : s.croppedImage = none) (hp : s.processedImage = none)
    (hr : s.resizeMode = false) (hf : s.fillMode = true)
    (_hs : 0 < s.layout.scale)
    (hout : (pos.x - s.layout.offsetX) / s.layout.scale < 0 ∨
      (pos.y - s.layout.offsetY) / s.layout.scale < 0 ∨
      (ops.naturalWidth s.working : ℚ) ≤ (pos.x - s.layout.offsetX) / s.layout.scale ∨
      (ops.naturalHeight s.working : ℚ) ≤ (pos.y - s.layout.offsetY) / s.layout.scale) :
    handleMouseDown ops s pos = s := by
  simp only [handleMouseDown, hc, hp, hr, hf, Option.isSome_none, Bool.or_self,
    Bool.false_eq_true, if_false, if_true]
  rw [if_pos hout]

/-- Witness for `fill_out_of_bounds_noop` at a concrete out-of-bounds
pointer-down. -/
theorem fill_out_of_bounds_noop_witness :
    handleMouseDown natOps fillState ⟨-5, 0⟩ = fillState :=
  fill_out_of_bounds_noop natOps fillState ⟨-5, 0⟩ rfl rfl rfl rfl
    (by norm_num [fillState]) (Or.inl (by norm_num [fillState]))

/-- Claim C1, counterexample: committing a crop via "use as source" replaces
the working image (1 becomes 2) but pushes nothing onto the undo stack and
does not clear the redo stack, contradicting the claim that every commit
first pushes the pre-operation snapshot and clears redo. -/
theorem useCropped_skips_undo_push :
    (handleUseCropped natOps croppedState).working = 2
    ∧ (handleUseCropped natOps croppedState).undoStack = []
    ∧ (handleUseCropped natOps croppedState).redoStack = [9] :=
  ⟨rfl, rfl, rfl⟩

/-- Claim C1 as amended: only the flood-fill and flip commits push a
snapshot of the pre-operation working image onto the undo stack and clear
the redo stack before replacing the working image with the operation's
result; the "use as source" commits for crop, background removal and resize
replace the working image without touching the undo or redo stacks. -/
theorem commit_undo_discipline {Img : Type} (ops : RasterOps Img)
    (s : EditorState Img) (pos : Point) :
    (s.croppedImage = none → s.processedImage = none → s.resizeMode = false →
      s.fillMode = true →
      ¬((pos.x - s.layout.offsetX) / s.layout.scale < 0 ∨
        (pos.y - s.layout.offsetY) / s.layout.scale < 0 ∨
        (ops.naturalWidth s.working : ℚ) ≤ (pos.x - s.layout.offsetX) / s.layout.scale ∨
        (ops.naturalHeight s.working : ℚ) ≤ (pos.y - s.layout.offsetY) / s.layout.scale) →
      (handleMouseDown ops s pos).undoStack = s.undoStack ++ [s.working] ∧
      (handleMouseDown ops s pos).redoStack = [] ∧
      (handleMouseDown ops s pos).working =
        ops.floodFill s.working ((pos.x - s.layout.offsetX) / s.layout.scale)
          ((pos.y - s.layout.offsetY) / s.layout.scale) s.fillColor s.fillTolerance)
    ∧ ((handleFlipClick ops s).undoStack = s.undoStack ++ [s.working] ∧
       (handleFlipClick ops s).redoStack = [] ∧
       (handleFlipClick ops s).working = ops.flipHorizontal s.working)
    ∧ (∀ img, s.croppedImage = some img →
        (handleUseCropped ops s).working = img ∧
        (handleUseCropped ops s).undoStack = s.undoStack ∧
        (handleUseCropped ops s).redoStack = s.redoStack)
    ∧ (∀ img, s.processedImage = some img →
        (handleUseProcessed ops s).working = img ∧
        (handleUseProcessed ops s).undoStack = s.undoStack ∧
        (handleUseProcessed ops s).redoStack = s.redoStack)
    ∧ (∀ img, s.processedImage = some img →
        (handleUseResized ops s).working = img ∧
        (handleUseResized ops s).undoStack = s.undoStack ∧
        (handleUseResized ops s).redoStack = s.redoStack) := by
  refine ⟨?_, ⟨rfl, rfl, rfl⟩, ?_, ?_, ?_⟩
  · intro hc hp hr hf hin
    simp only [handleMouseDown, hc, hp, hr, hf, Option.isSome_none, Bool.or_self,
      Bool.false_eq_true, if_false, if_true]
    rw [if_neg hin]
    exact ⟨rfl, rfl, rfl⟩
  · intro img h
    simp [handleUseCropped, h]
  · intro img h
    simp [handleUseProcessed, h]
  · intro img h
    simp [handleUseResized, h]

/-- Witness for `commit_undo_discipline`: an in-bounds fill commit pushes
the pre-operation image 7 and clears redo, a flip commit pushes image 1, and
a "use as source" crop commit leaves the undo stack empty. -/
theorem commit_undo_discipline_witness :
    (handleMouseDown natOps fillState ⟨1, 1⟩).undoStack = [7]
    ∧ (handleMouseDown natOps fillState ⟨1, 1⟩).redoStack = []
    ∧ (handleFlipClick natOps croppedState).undoStack = [1]
    ∧ (handleUseCropped natOps croppedState).undoStack = [] := by
  obtain ⟨h1, h2, _⟩ :=
    (commit_undo_discipline natOps fillState ⟨1, 1⟩).1 rfl rfl rfl rfl
      (by norm_num [fillState, natOps])
  obtain ⟨h3, _, _⟩ := (commit_undo_discipline natOps croppedState ⟨0, 0⟩).2.1
  obtain ⟨_, h4, _⟩ :=
    (commit_undo_discipline natOps croppedState ⟨0, 0⟩).2.2.1 2 rfl
  exact ⟨by simpa using h1, h2, by simpa using h3, by simpa using h4⟩

/-! ## Claim theorems: WAV encoder (C3, C2) -/

theorem length_flatMap_sampleBytes (samples : List ℚ) :
    (samples.flatMap sampleBytes).length = 2 * samples.length := by
  induction samples with
  | nil => rfl
  | cons a l ih =>
    simp only [List.flatMap_cons, List.length_append, ih, sampleBytes, u16le,
      List.length_cons, List.length_nil]
    omega

theorem encodeWAV_drop_header (samples : List ℚ) (rate : ℕ) :
    (encodeWAV samples rate).drop 44 = samples.flatMap sampleBytes := rfl

theorem flatMap_sampleBytes_get (samples : List ℚ) (i : ℕ) (s : ℚ)
    (h : samples[i]? = some s) :
    ((samples.flatMap sampleBytes).drop (2 * i)).take 2 = sampleBytes s := by
  induction samples generalizing i with
  | nil => simp at h
  | cons a l ih =>
    cases i with
    | zero =>
      simp only [List.getElem?_cons_zero, Option.some.injEq] at h
      subst h
      simp [List.flatMap_cons, sampleBytes, u16le]
    | succ n =>
      have h2 : l[n]? = some s := by simpa using h
      have hrw : 2 * (n + 1) = 2 * n + 1 + 1 := by ring
      simp only [List.flatMap_cons, sampleBytes, u16le, List.cons_append,
        List.nil_append, hrw, List.drop_succ_cons]
      exact ih n h2

theorem encodeWAV_length (samples : List ℚ) (rate : ℕ) :
    (encodeWAV samples rate).length = 44 + 2 * samples.length := by
  simp only [encodeWAV, u32le, u16le, List.append_assoc, List.length_append,
    List.length_cons, List.length_nil, length_flatMap_sampleBytes]
  omega

theorem clamp1_neg_iff (s : ℚ) : clamp1 s < 0 ↔ s < 0 := by
  unfold clamp1
  constructor
  · intro h
    by_contra hs
    push_neg at hs
    have h1 : (0 : ℚ) ≤ min 1 s := le_min (by norm_num) hs
    have h2 : (0 : ℚ) ≤ max (-1) (min 1 s) := le_trans h1 (le_max_right _ _)
    exact absurd h (not_lt.mpr h2)
  · intro hs
    have h1 : min 1 s = s := min_eq_right (le_of_lt (lt_trans hs (by norm_num)))
    rw [h1]
    exact max_lt (by norm_num) hs

theorem quantizeSample_sign (s : ℚ) :
    quantizeSample s = jsTruncQ (clamp1 s * (if s < 0 then 32768 else 32767)) := by
  show jsTruncQ (if clamp1 s < 0 then clamp1 s * 32768 else clamp1 s * 32767)
      = jsTruncQ (clamp1 s * (if s < 0 then 32768 else 32767))
  by_cases h : s < 0
  · rw [if_pos ((clamp1_neg_iff s).mpr h), if_pos h]
  · rw [if_neg (fun hc => h ((clamp1_neg_iff s).mp hc)), if_neg h]

theorem sampleBytes_one : sampleBytes 1 = [255, 127] := by
  norm_num [sampleBytes, u16le, quantizeSample, jsTruncQ, clamp1]
  decide

theorem sampleBytes_negOne : sampleBytes (-1) = [0, 128] := by
  have hceil : ⌈(-32768 : ℚ)⌉ = -32768 := by
    rw [Int.ceil_eq_iff]
    norm_num
  norm_num [sampleBytes, u16le, quantizeSample, jsTruncQ, clamp1, hceil]
  decide

set_option maxHeartbeats 1600000 in
/-- Claim C3: `encodeWAV` produces `44 + 2n` bytes whose little-endian header
fields match the RIFF/WAVE layout ('RIFF', ChunkSize = 36 + dataSize, 'WAVE',
'fmt ', Subchunk1Size 16, AudioFormat 1, NumChannels 1, SampleRate, ByteRate
= SampleRate * 2, BlockAlign 2, BitsPerSample 16, 'data', Subchunk2Size =
dataSize = 2n); in particular `encodeWAV [] 44100` is exactly 44 bytes with
Subchunk2Size 0 and ChunkSize 36. -/
theorem encodeWAV_header_fields (samples : List ℚ) (rate : ℕ)
    (_hr : rate = 44100 ∨ rate = 22050) :
    (encodeWAV samples rate).length = 44 + 2 * samples.length
    ∧ bytesAt (encodeWAV samples rate) 0 4 = [82, 73, 70, 70]
    ∧ bytesAt (encodeWAV samples rate) 4 4 = u32le (36 + 2 * samples.length)
    ∧ bytesAt (encodeWAV samples rate) 8 4 = [87, 65, 86, 69]
    ∧ bytesAt (encodeWAV samples rate) 12 4 = [102, 109, 116, 32]
    ∧ bytesAt (encodeWAV samples rate) 16 4 = u32le 16
    ∧ bytesAt (encodeWAV samples rate) 20 2 = u16le 1
    ∧ bytesAt (encodeWAV samples rate) 22 2 = u16le 1
    ∧ bytesAt (encodeWAV samples rate) 24 4 = u32le rate
    ∧ bytesAt (encodeWAV samples rate) 28 4 = u32le (rate * 2)
    ∧ bytesAt (encodeWAV samples rate) 32 2 = u16le 2
    ∧ bytesAt (encodeWAV samples rate) 34 2 = u16le 16
    ∧ bytesAt (encodeWAV samples rate) 36 4 = [100, 97, 116, 97]
    ∧ bytesAt (encodeWAV samples rate) 40 4 = u32le (2 * samples.length)
    ∧ (encodeWAV [] 44100).length = 44
    ∧ bytesAt (encodeWAV [] 44100) 40 4 = u32le 0
    ∧ bytesAt (encodeWAV [] 44100) 4 4 = u32le 36 :=
  ⟨encodeWAV_length samples rate, rfl, rfl, rfl, rfl, rfl, rfl, rfl, rfl, rfl,
    rfl, rfl, rfl, rfl, by decide, by decide, by decide⟩

/-- Witness for `encodeWAV_header_fields` at the empty sample list and the
supported rate 44100. -/
theorem encodeWAV_header_fields_witness :
    (encodeWAV [] 44100).length = 44 := by
  have h := (encodeWAV_header_fields [] 44100 (Or.inl rfl)).1
  simpa using h

/-- Claim C2, counterexample: `encodeWAV [1, -1] 44100` stores the sample
words as bytes FF 7F then 00 80 (little-endian 32767 and -32768), not
7F FF then 00 80 as the claim states; moreover `setInt16` truncates rather
than rounds, so the sample 1/2 is stored as 16383 while the claim's
`round(clamp(s) * 32767)` formula gives 16384. -/
theorem encodeWAV_sample_bytes_cex :
    bytesAt (encodeWAV [1, -1] 44100) 44 4 = [255, 127, 0, 128]
    ∧ bytesAt (encodeWAV [1, -1] 44100) 44 4 ≠ [127, 255, 0, 128]
    ∧ quantizeSample (1 / 2) = 16383
    ∧ specRound (clamp1 (1 / 2) * 32767) = 16384 := by
  have hdata : bytesAt (encodeWAV [1, -1] 44100) 44 4 = [255, 127, 0, 128] := by
    show ((encodeWAV [1, -1] 44100).drop 44).take 4 = _
    rw [encodeWAV_drop_header]
    simp [List.flatMap_cons, sampleBytes_one, sampleBytes_negOne]
  refine ⟨hdata, by rw [hdata]; decide, ?_, ?_⟩
  · norm_num [quantizeSample, jsTruncQ, clamp1]
  · norm_num [specRound, clamp1]

/-- Claim C2 as amended: `encodeWAV` stores at sample position `i` the
little-endian 16-bit two's-complement representation of
`trunc(clamp(s, -1, 1) * (s < 0 ? 32768 : 32767))` (truncation toward zero,
as performed by `setInt16`); in particular `encodeWAV [1, -1] 44100`
produces 48 bytes whose two sample words are the bytes FF 7F followed by
00 80. -/
theorem encodeWAV_sample_quantization (samples : List ℚ) (rate : ℕ) (i : ℕ)
    (s : ℚ) (h : samples[i]? = some s) :
    bytesAt (encodeWAV samples rate) (44 + 2 * i) 2
        = u16le ((jsTruncQ (clamp1 s * (if s < 0 then 32768 else 32767))
            % 65536).toNat)
    ∧ (encodeWAV [1, -1] 44100).length = 48
    ∧ bytesAt (encodeWAV [1, -1] 44100) 44 4 = [255, 127, 0, 128] := by
  refine ⟨?_, by simpa using encodeWAV_length [1, -1] 44100, ?_⟩
  · calc
      bytesAt (encodeWAV samples rate) (44 + 2 * i) 2
          = ((samples.flatMap sampleBytes).drop (2 * i)).take 2 := by
            unfold bytesAt
            rw [← List.drop_drop, encodeWAV_drop_header]
      _ = sampleBytes s := flatMap_sampleBytes_get samples i s h
      _ = u16le ((jsTruncQ (clamp1 s * (if s < 0 then 32768 else 32767))
            % 65536).toNat) := by
            rw [sampleBytes, quantizeSample_sign]
  · show ((encodeWAV [1, -1] 44100).drop 44).take 4 = _
    rw [encodeWAV_drop_header]
    simp [List.flatMap_cons, sampleBytes_one, sampleBytes_negOne]

/-- Witness for `encodeWAV_sample_quantization` at the first sample of
`encodeWAV [1, -1] 44100`. -/
theorem encodeWAV_sample_quantization_witness :
    bytesAt (encodeWAV [1, -1] 44100) (44 + 2 * 0) 2 = [255, 127] := by
  have h := (encodeWAV_sample_quantization [1, -1] 44100 0 1 rfl).1
  rw [h]
  norm_num [u16le, jsTruncQ, clamp1]
  decide

/-! ## Claim theorems: removeBackground (C4, C9) -/

theorem colorDist_set_alpha (p : RGBA) (t : RGBColor) (a2 : ℕ) :
    colorDist { p with a := a2 } t = colorDist p t := rfl

theorem bgThreshold_nonneg (tol : ℚ) (h : 0 ≤ tol) : 0 ≤ bgThreshold tol := by
  unfold bgThreshold
  have h1 : (0 : ℝ) ≤ (tol : ℝ) := by exact_mod_cast h
  have h2 : (0 : ℝ) ≤ (tol : ℝ) / 100 := div_nonneg h1 (by norm_num)
  exact mul_nonneg h2 (by norm_num)

theorem bgThreshold_pos (tol : ℚ) (h : 0 < tol) : 0 < bgThreshold tol := by
  unfold bgThreshold
  have h1 : (0 : ℝ) < (tol : ℝ) := by exact_mod_cast h
  exact mul_pos (div_pos h1 (by norm_num)) (by norm_num)

theorem removeBackground_getElem (t : RGBColor) (tol : ℚ) (img : List RGBA)
    (i : ℕ) (p : RGBA) (hp : img[i]? = some p) :
    (removeBackground t tol img)[i]? = some (removeBackgroundPixel t tol p) := by
  simp [removeBackground, List.getElem?_map, hp]

/-- Claim C4 as amended: with `threshold = tolerancePercent / 100 * 441`
(the source uses `maxDistance = 441`, not the 441.67 of the claim), every
pixel with distance at most 0.7 * threshold ends fully transparent, every
pixel with distance in `(0.7 * threshold, threshold]` gets the rounded alpha
`round(255 * (d - 0.7 * threshold) / (0.3 * threshold))`, and every pixel
with distance beyond the threshold is untouched. -/
theorem removeBackground_threshold_cases (t : RGBColor) (tol : ℚ)
    (img : List RGBA) (i : ℕ) (p : RGBA) (hp : img[i]? = some p)
    (htol : 0 ≤ tol) :
    (colorDist p t ≤ bgThreshold tol * (7 / 10) →
      (removeBackground t tol img)[i]? = some { p with a := 0 })
    ∧ (bgThreshold tol * (7 / 10) < colorDist p t →
      colorDist p t ≤ bgThreshold tol →
      (removeBackground t tol img)[i]? = some { p with a :=
        (jsRound ((255 : ℝ) * ((colorDist p t - bgThreshold tol * (7 / 10)) /
          (bgThreshold tol * (3 / 10))))).toNat })
    ∧ (bgThreshold tol < colorDist p t →
      (removeBackground t tol img)[i]? = some p) := by
  have hmap := removeBackground_getElem t tol img i p hp
  have hθ : 0 ≤ bgThreshold tol := bgThreshold_nonneg tol htol
  refine ⟨?_, ?_, ?_⟩
  · intro h
    rw [hmap]
    have hth : colorDist p t ≤ bgThreshold tol := by linarith
    simp only [removeBackgroundPixel]
    rw [if_pos hth, if_pos h]
  · intro h1 h2
    rw [hmap]
    simp only [removeBackgroundPixel]
    rw [if_pos h2, if_neg (not_le.mpr h1)]
  · intro h
    rw [hmap]
    simp only [removeBackgroundPixel]
    rw [if_neg (not_le.mpr h)]

/-- Witness for `removeBackground_threshold_cases`: a pure red pixel at
distance 255 from a black target is untouched at tolerance 10. -/
theorem removeBackground_threshold_cases_witness :
    (removeBackground ⟨0, 0, 0⟩ 10 [⟨255, 0, 0, 77⟩])[0]?
      = some ⟨255, 0, 0, 77⟩ := by
  have hsq : colorDistSq ⟨255, 0, 0, 77⟩ ⟨0, 0, 0⟩ = 65025 := by
    norm_num [colorDistSq]
  have hd : colorDist ⟨255, 0, 0, 77⟩ ⟨0, 0, 0⟩ = 255 := by
    unfold colorDist
    rw [hsq, show ((65025 : ℚ) : ℝ) = 255 ^ 2 by norm_num]
    exact Real.sqrt_sq (by norm_num)
  exact (removeBackground_threshold_cases ⟨0, 0, 0⟩ 10 [⟨255, 0, 0, 77⟩] 0
    ⟨255, 0, 0, 77⟩ rfl (by norm_num)).2.2
    (by rw [hd]; norm_num [bgThreshold])

/-- Claim C4, counterexample: at tolerance 60 the pixel (240, 112, 9) is at
distance exactly 265 from black, inside the ramp band of the claim's
threshold `60 / 100 * 441.67 = 265.002` (so the claim mandates alpha 255),
but the source's threshold is `60 / 100 * 441 = 264.6 < 265`, so the pixel
is untouched and keeps its original alpha 100. -/
theorem removeBackground_spec_constant_cex :
    (60 : ℝ) / 100 * 441.67 * (7 / 10) < colorDist ⟨240, 112, 9, 100⟩ ⟨0, 0, 0⟩
    ∧ colorDist ⟨240, 112, 9, 100⟩ ⟨0, 0, 0⟩ ≤ (60 : ℝ) / 100 * 441.67
    ∧ (jsRound ((255 : ℝ) *
        ((colorDist ⟨240, 112, 9, 100⟩ ⟨0, 0, 0⟩ -
            (60 : ℝ) / 100 * 441.67 * (7 / 10)) /
          ((60 : ℝ) / 100 * 441.67 * (3 / 10))))).toNat = 255
    ∧ (removeBackground ⟨0, 0, 0⟩ 60 [⟨240, 112, 9, 100⟩])[0]?
        = some ⟨240, 112, 9, 100⟩ := by
  have hsq : colorDistSq ⟨240, 112, 9, 100⟩ ⟨0, 0, 0⟩ = 70225 := by
    norm_num [colorDistSq]
  have hd : colorDist ⟨240, 112, 9, 100⟩ ⟨0, 0, 0⟩ = 265 := by
    unfold colorDist
    rw [hsq, show ((70225 : ℚ) : ℝ) = 265 ^ 2 by norm_num]
    exact Real.sqrt_sq (by norm_num)
  refine ⟨by rw [hd]; norm_num, by rw [hd]; norm_num, ?_, ?_⟩
  · rw [hd]
    have hfl : jsRound ((255 : ℝ) *
        ((265 - (60 : ℝ) / 100 * 441.67 * (7 / 10)) /
          ((60 : ℝ) / 100 * 441.67 * (3 / 10)))) = 255 := by
      unfold jsRound
      rw [Int.floor_eq_iff]
      constructor <;> norm_num
    rw [hfl]
    rfl
  · have hpix : removeBackgroundPixel ⟨0, 0, 0⟩ 60 ⟨240, 112, 9, 100⟩
        = ⟨240, 112, 9, 100⟩ := by
      simp only [removeBackgroundPixel]
      rw [hd, if_neg (by norm_num [bgThreshold])]
    rw [removeBackground_getElem ⟨0, 0, 0⟩ 60 [⟨240, 112, 9, 100⟩] 0
      ⟨240, 112, 9, 100⟩ rfl, hpix]

/-- Claim C9 as amended: `removeBackground` preserves the pixel count and
every pixel's RGB bytes; for a pixel within the threshold the alpha byte is
overwritten with a value that does not depend on the original alpha, and a
pixel at distance exactly equal to a positive threshold gets alpha 255.
(The overwritten ramp value can round to 0 just above 0.7 * threshold, so a
transparent pixel in the ramp band may stay transparent.) -/
theorem removeBackground_alpha_only (t : RGBColor) (tol : ℚ) (img : List RGBA) :
    (removeBackground t tol img).length = img.length
    ∧ (∀ (i : ℕ) (p : RGBA), img[i]? = some p →
        (removeBackground t tol img)[i]? = some (removeBackgroundPixel t tol p)
        ∧ (removeBackgroundPixel t tol p).r = p.r
        ∧ (removeBackgroundPixel t tol p).g = p.g
        ∧ (removeBackgroundPixel t tol p).b = p.b)
    ∧ (∀ p a2, colorDist p t ≤ bgThreshold tol →
        (removeBackgroundPixel t tol { p with a := a2 }).a
          = (removeBackgroundPixel t tol p).a)
    ∧ (∀ p, 0 < tol → colorDist p t = bgThreshold tol →
        (removeBackgroundPixel t tol p).a = 255) := by
  refine ⟨by simp [removeBackground], ?_, ?_, ?_⟩
  · intro i p hp
    refine ⟨removeBackground_getElem t tol img i p hp, ?_, ?_, ?_⟩ <;>
      · simp only [removeBackgroundPixel]
        split <;> rfl
  · intro p a2 h
    simp only [removeBackgroundPixel, colorDist_set_alpha]
    rw [if_pos h, if_pos h]
  · intro p hpos heq
    have hθpos : 0 < bgThreshold tol := bgThreshold_pos tol hpos
    have hlt : bgThreshold tol * (7 / 10) < bgThreshold tol := by linarith
    simp only [removeBackgroundPixel]
    rw [heq, if_pos (le_refl _), if_neg (not_le.mpr hlt)]
    have hsub : bgThreshold tol - bgThreshold tol * (7 / 10)
        = bgThreshold tol * (3 / 10) := by ring
    have hne : bgThreshold tol * (3 / 10) ≠ 0 := by positivity
    rw [hsub, div_self hne, mul_one]
    have hfl : jsRound (255 : ℝ) = 255 := by
      unfold jsRound
      rw [Int.floor_eq_iff]
      constructor <;> norm_num
    rw [hfl]
    rfl

/-- Witness for `removeBackground_alpha_only`: the length is preserved on a
singleton image, and a pixel at distance 255 from black with tolerance
8500/147 (whose threshold is exactly 255) gets alpha 255. -/
theorem removeBackground_alpha_only_witness :
    (removeBackground ⟨0, 0, 0⟩ (8500 / 147) [⟨255, 0, 0, 7⟩]).length = 1
    ∧ (removeBackgroundPixel ⟨0, 0, 0⟩ (8500 / 147) ⟨255, 0, 0, 7⟩).a = 255 := by
  have h := removeBackground_alpha_only ⟨0, 0, 0⟩ (8500 / 147) [⟨255, 0, 0, 7⟩]
  refine ⟨by simpa using h.1, ?_⟩
  apply h.2.2.2 ⟨255, 0, 0, 7⟩ (by norm_num)
  have hsq : colorDistSq ⟨255, 0, 0, 7⟩ ⟨0, 0, 0⟩ = 65025 := by
    norm_num [colorDistSq]
  have hd : colorDist ⟨255, 0, 0, 7⟩ ⟨0, 0, 0⟩ = 255 := by
    unfold colorDist
    rw [hsq, show ((65025 : ℚ) : ℝ) = 255 ^ 2 by norm_num]
    exact Real.sqrt_sq (by norm_num)
  rw [hd]
  norm_num [bgThreshold]

/-- Claim C9, counterexample: at tolerance 60 the transparent pixel
(185, 9, 1, alpha 0) has distance sqrt 34307, which lies in the ramp band
`(185.22, 264.6]`, yet its ramp value rounds to 0, so the pixel stays fully
transparent instead of becoming partially or fully opaque. -/
theorem removeBackground_ramp_zero_alpha_cex :
    bgThreshold 60 * (7 / 10) < colorDist ⟨185, 9, 1, 0⟩ ⟨0, 0, 0⟩
    ∧ colorDist ⟨185, 9, 1, 0⟩ ⟨0, 0, 0⟩ ≤ bgThreshold 60
    ∧ (removeBackground ⟨0, 0, 0⟩ 60 [⟨185, 9, 1, 0⟩])[0]?
        = some ⟨185, 9, 1, 0⟩ := by
  have hsq : colorDistSq ⟨185, 9, 1, 0⟩ ⟨0, 0, 0⟩ = 34307 := by
    norm_num [colorDistSq]
  have hdd : colorDist ⟨185, 9, 1, 0⟩ ⟨0, 0, 0⟩ = Real.sqrt 34307 := by
    unfold colorDist
    rw [hsq]
    norm_num
  have hθ : bgThreshold 60 = 264.6 := by norm_num [bgThreshold]
  have hlow : (185.22 : ℝ) < Real.sqrt 34307 := by
    rw [Real.lt_sqrt (by norm_num)]
    norm_num
  have hup : Real.sqrt 34307 ≤ 264.6 := by
    rw [Real.sqrt_le_iff]
    norm_num
  have hup2 : Real.sqrt 34307 < 185.222 := by
    rw [Real.sqrt_lt' (by norm_num)]
    norm_num
  refine ⟨?_, ?_, ?_⟩
  · rw [hdd, hθ]
    linarith
  · rw [hdd, hθ]
    exact hup
  · have hx0 : (0 : ℝ) ≤ 255 * ((Real.sqrt 34307 - 264.6 * (7 / 10)) /
        (264.6 * (3 / 10))) := by
      apply mul_nonneg (by norm_num)
      apply div_nonneg _ (by norm_num)
      linarith
    have hx1 : 255 * ((Real.sqrt 34307 - 264.6 * (7 / 10)) /
        (264.6 * (3 / 10))) < 1 / 2 := by
      rw [mul_div_assoc', div_lt_iff₀ (by norm_num : (0:ℝ) < 264.6 * (3 / 10))]
      nlinarith [hup2]
    have hfl : jsRound (255 * ((Real.sqrt 34307 - 264.6 * (7 / 10)) /
        (264.6 * (3 / 10)))) = 0 := by
      unfold jsRound
      rw [Int.floor_eq_iff]
      constructor
      · push_cast
        linarith
      · push_cast
        linarith
    have hpix : removeBackgroundPixel ⟨0, 0, 0⟩ 60 ⟨185, 9, 1, 0⟩
        = ⟨185, 9, 1, 0⟩ := by
      simp only [removeBackgroundPixel]
      rw [hdd, hθ, if_pos hup, if_neg (not_le.mpr (by linarith : (264.6 : ℝ) *
        (7 / 10) < Real.sqrt 34307)), hfl]
      rfl
    rw [removeBackground_getElem ⟨0, 0, 0⟩ 60 [⟨185, 9, 1, 0⟩] 0
      ⟨185, 9, 1, 0⟩ rfl, hpix]

end ImageTools
